import Mathlib

/-!
# Verification of the nuclei fuzzing-stats subsystem

Shallow embedding of `pkg/fuzz/stats` (the Tracker facade, the sqlite-backed
stats database with its dimension resolvers, and the site-name normalizer),
together with theorems settling the specification claims about it.

Conventions of the embedding:
* The sqlite tables are lists of row structures; identity columns are modelled
  by a `next…Id` counter per table (the schema's integer-identity columns).
* Go errors are strings; `errors.Wrap(err, msg)` is `msg ++ ": " ++ err`.
* A transaction is an explicit copy of the tables: operations act on the copy,
  `Commit` installs it, `Rollback` discards it.  The in-memory identifier
  caches live on the database value, outside the transaction, exactly as the
  Go code keeps them on the `sqliteStatsDatabase` struct.
* `INSERT OR IGNORE INTO … VALUES … RETURNING id` followed by `Scan` is
  modelled after SQLite's documented semantics: the `RETURNING` clause reports
  only rows actually inserted, so when the uniqueness constraint makes
  `OR IGNORE` skip the insert, zero rows come back and `database/sql`'s
  `Scan` fails with `sql.ErrNoRows` ("sql: no rows in result set").
-/

namespace NucleiFuzzStats

/-- Go's `sql.ErrNoRows` error text, produced by `QueryRow(…).Scan` when the
statement returns no rows. -/
def errNoRows : String := "sql: no rows in result set"

/-- Go's error text when an operation is attempted on a closed `*sql.DB`. -/
def errDBClosed : String := "sql: database is closed"

/-- `errors.Wrap(err, msg)` from github.com/pkg/errors: "msg: err". -/
def wrapErr (msg err : String) : String := msg ++ ": " ++ err

/-- A row of the `sites` table.  Modelled from the spec: the embedded
`schema.sql` is not part of the excerpt; §3 gives
`{site_id: integer identity, site_name: string, unique(site_name)}`. -/
structure SiteRow where
  site_id : Nat
  site_name : String
deriving DecidableEq, Repr

/-- A row of the `templates` table.  Modelled from the spec:
`{template_id: integer identity, template_name: string, unique(template_name)}`. -/
structure TemplateRow where
  template_id : Nat
  template_name : String
deriving DecidableEq, Repr

/-- A row of the `components` table.  Modelled from the spec:
`{component_id: integer identity, site_id, component_type, component_name,
unique(site_id, component_type, component_name)}`. -/
structure ComponentRow where
  component_id : Nat
  site_id : Nat
  component_type : String
  component_name : String
deriving DecidableEq, Repr

/-- A row of the `fuzzing_results` fact table. -/
structure FuzzingResultRow where
  component_id : Nat
  template_id : Nat
  payload_sent : String
  status_code_received : Int
deriving DecidableEq, Repr

/-- The durable tables of the stats database (one sqlite file).  The
`next…Id` counters model the integer-identity columns; they are part of the
table state and therefore roll back with a transaction. -/
structure Tables where
  sites : List SiteRow
  templates : List TemplateRow
  components : List ComponentRow
  fuzzing_results : List FuzzingResultRow
  nextSiteId : Nat
  nextTemplateId : Nat
  nextComponentId : Nat
deriving DecidableEq, Repr

/-- The empty database produced by applying the schema to a fresh file. -/
def Tables.empty : Tables :=
  { sites := [], templates := [], components := [], fuzzing_results := []
    nextSiteId := 1, nextTemplateId := 1, nextComponentId := 1 }

/-- Go map lookup on an association list.  New entries are consed to the
front, so the first match is the current binding (Go maps overwrite). -/
def cacheLookup : List (String × Nat) → String → Option Nat
  | [], _ => none
  | (k, v) :: rest, key => if k = key then some v else cacheLookup rest key

/-- The three in-memory identifier caches of `sqliteStatsDatabase`
(`siteIDCache`, `templateIDCache`, `componentIDCache`).  The mutex only
guards map access in the Go code and has no observable effect in this
sequential embedding. -/
structure Caches where
  siteIDCache : List (String × Nat)
  templateIDCache : List (String × Nat)
  componentIDCache : List (String × Nat)
deriving DecidableEq, Repr

/-- All caches empty, as `newSqliteStatsDatabase` makes them. -/
def Caches.empty : Caches :=
  { siteIDCache := [], templateIDCache := [], componentIDCache := [] }

/-- The `*sql.DB` handle: the durable tables plus the closed flag set by
`db.Close()`. -/
structure DB where
  closed : Bool
  tables : Tables
deriving DecidableEq, Repr

/-- The `sqliteStatsDatabase` struct: database handle, scan name, caches,
and the files its sqlite store keeps on disk (the embedding tracks the
filenames this subsystem creates and removes). -/
structure SqliteStatsDatabase where
  db : DB
  scanName : String
  caches : Caches
  files : List String
deriving DecidableEq, Repr

/-- `newSqliteStatsDatabase(scanName)`: opens `./<scanName>.stats.db` with
`_journal_mode=WAL` and applies the schema.  The sqlite store keeps the main
data file plus the WAL side artifacts `-wal` and `-shm` on disk.  The error
paths of `sql.Open`/schema application are not reachable in the embedding
(no I/O), so the constructor is total. -/
def newSqliteStatsDatabase (scanName : String) : SqliteStatsDatabase :=
  { db := { closed := false, tables := Tables.empty }
    scanName := scanName
    caches := Caches.empty
    files := [scanName ++ ".stats.db", scanName ++ ".stats.db-wal",
              scanName ++ ".stats.db-shm"] }

/-- `os.Remove`: drop a filename from the modelled filesystem (removal of a
missing file is an ignored error in the Go code). -/
def removeFile (files : List String) (name : String) : List String :=
  files.filter (fun f => f ≠ name)

/-- `func (s *sqliteStatsDatabase) Close()`: closes the handle, then removes
`<scanName>.stats.db-wal` and `<scanName>.stats.db-shm`. -/
def SqliteStatsDatabase.close (s : SqliteStatsDatabase) : SqliteStatsDatabase :=
  { s with
    db := { s.db with closed := true }
    files := removeFile (removeFile s.files (s.scanName ++ ".stats.db-wal"))
      (s.scanName ++ ".stats.db-shm") }

/-- `INSERT OR IGNORE INTO sites (site_name) VALUES (?) RETURNING site_id`,
run through `QueryRow(…).Scan`: when no row with this `site_name` exists the
row is inserted and its fresh identity returned; when the unique constraint
already holds a row for the key, `OR IGNORE` skips the insert and
`RETURNING` reports nothing, so the scan yields no identifier. -/
def queryInsertSiteReturning (tx : Tables) (name : String) : Option Nat × Tables :=
  if tx.sites.any (fun r => r.site_name = name) then
    (none, tx)
  else
    (some tx.nextSiteId,
      { tx with sites := { site_id := tx.nextSiteId, site_name := name } :: tx.sites
                nextSiteId := tx.nextSiteId + 1 })

/-- Same statement shape for `templates`. -/
def queryInsertTemplateReturning (tx : Tables) (name : String) : Option Nat × Tables :=
  if tx.templates.any (fun r => r.template_name = name) then
    (none, tx)
  else
    (some tx.nextTemplateId,
      { tx with
        templates :=
          { template_id := tx.nextTemplateId, template_name := name } :: tx.templates
        nextTemplateId := tx.nextTemplateId + 1 })

/-- Same statement shape for `components`; uniqueness is on the triple
`(site_id, component_type, component_name)`. -/
def queryInsertComponentReturning (tx : Tables) (siteID : Nat)
    (ctype cname : String) : Option Nat × Tables :=
  if tx.components.any (fun r =>
      r.site_id = siteID ∧ r.component_type = ctype ∧ r.component_name = cname) then
    (none, tx)
  else
    (some tx.nextComponentId,
      { tx with
        components :=
          { component_id := tx.nextComponentId, site_id := siteID
            component_type := ctype, component_name := cname } :: tx.components
        nextComponentId := tx.nextComponentId + 1 })

/-- `func (s *sqliteStatsDatabase) getSiteID(tx, siteName)`: cache lookup
first; on a miss, run the insert-returning statement inside the caller's
transaction; any scan error is returned as-is; on success the identifier is
cached before returning.  The error leg leaves caches and transaction
unchanged, so the caller keeps its pre-call values there. -/
def getSiteID (caches : Caches) (tx : Tables) (siteName : String) :
    Except String (Nat × Caches × Tables) :=
  match cacheLookup caches.siteIDCache siteName with
  | some id => .ok (id, caches, tx)
  | none =>
    match queryInsertSiteReturning tx siteName with
    | (none, _) => .error errNoRows
    | (some id, tx') =>
      .ok (id, { caches with siteIDCache := (siteName, id) :: caches.siteIDCache }, tx')

/-- `func (s *sqliteStatsDatabase) getTemplateID(tx, templateName)`. -/
def getTemplateID (caches : Caches) (tx : Tables) (templateName : String) :
    Except String (Nat × Caches × Tables) :=
  match cacheLookup caches.templateIDCache templateName with
  | some id => .ok (id, caches, tx)
  | none =>
    match queryInsertTemplateReturning tx templateName with
    | (none, _) => .error errNoRows
    | (some id, tx') =>
      .ok (id,
        { caches with templateIDCache := (templateName, id) :: caches.templateIDCache },
        tx')

/-- Fuel-driven digit accumulation: peels decimal digits of `n` from the
least significant end onto `acc`.  Any `fuel > n` is enough. -/
def natDecimalGo : Nat → Nat → List Char → List Char
  | 0, _, acc => acc
  | fuel + 1, n, acc =>
    if n < 10 then Char.ofNat (48 + n) :: acc
    else natDecimalGo fuel (n / 10) (Char.ofNat (48 + n % 10) :: acc)

/-- Decimal digits of a natural number, most significant first, as written by
`fmt.Sprintf("%d", n)` / `strconv.Itoa` for the nonnegative identifiers this
subsystem generates. -/
def natDecimalChars (n : Nat) : List Char := natDecimalGo (n + 1) n []

/-- `fmt.Sprintf("%d", n)` as a string. -/
def natDecimal (n : Nat) : String := ⟨natDecimalChars n⟩

/-- The component cache key `fmt.Sprintf("%d:%s:%s", siteID, componentType,
componentName)`. -/
def componentKey (siteID : Nat) (ctype cname : String) : String :=
  natDecimal siteID ++ ":" ++ ctype ++ ":" ++ cname

/-- `func (s *sqliteStatsDatabase) getComponentID(tx, siteID, componentType,
componentName)`: keyed by `componentKey` in the cache, resolved against the
`components` table on a miss. -/
def getComponentID (caches : Caches) (tx : Tables) (siteID : Nat)
    (ctype cname : String) : Except String (Nat × Caches × Tables) :=
  match cacheLookup caches.componentIDCache (componentKey siteID ctype cname) with
  | some id => .ok (id, caches, tx)
  | none =>
    match queryInsertComponentReturning tx siteID ctype cname with
    | (none, _) => .error errNoRows
    | (some id, tx') =>
      .ok (id,
        { caches with
          componentIDCache :=
            (componentKey siteID ctype cname, id) :: caches.componentIDCache },
        tx')

/-- `func (s *sqliteStatsDatabase) insertFuzzingResult(tx, componentID,
templateID, payloadSent, statusCode)`: plain `INSERT INTO fuzzing_results`.
Its `tx.Exec` error leg is unreachable in the embedding. -/
def insertFuzzingResult (tx : Tables) (componentID templateID : Nat)
    (payloadSent : String) (statusCode : Int) : Tables :=
  { tx with
    fuzzing_results :=
      { component_id := componentID, template_id := templateID
        payload_sent := payloadSent, status_code_received := statusCode }
        :: tx.fuzzing_results }

/-- The authority component of a Go `net/url.URL` after a successful
`url.Parse`: the `Scheme` and `Host` fields (`Host` still carries the
`:port` suffix when the URL had one).  `url.Parse` itself is Go standard
library, outside this repository; the embedding takes its outcome as input. -/
structure GoURL where
  scheme : String
  host : String
deriving DecidableEq, Repr

/-- The suffix after the first occurrence of `:`, if any
(`strings.IndexByte(hostport, ':')`). -/
def afterFirstColon : List Char → Option (List Char)
  | [] => none
  | ':' :: rest => some rest
  | _ :: rest => afterFirstColon rest

/-- The suffix after the first occurrence of the substring `"]:"`, if any
(`strings.Index(hostport, "]:")`). -/
def afterBracketColon : List Char → Option (List Char)
  | ']' :: ':' :: rest => some rest
  | _ :: rest => afterBracketColon rest
  | [] => none

/-- `net/url`'s `portOnly(hostPort)`, as called by `URL.Port()`: empty when
there is no colon; the part after `"]:"` for a bracketed IPv6 host with a
port; empty for a bracketed host without one; otherwise the part after the
first colon. -/
def portOnly (hostport : String) : String :=
  match afterFirstColon hostport.data with
  | none => ""
  | some afterColon =>
    match afterBracketColon hostport.data with
    | some rest => ⟨rest⟩
    | none => if hostport.data.contains ']' then "" else ⟨afterColon⟩

/-- `func getCorrectSiteName(originalURL string) string` from `stats.go`,
taking the `url.Parse` outcome (`none` is a parse error, for which the Go
code returns `""` instead of an error): the site name is `parsed.Host`,
with `":443"`/`":80"` appended for the `https`/`http` schemes when
`parsed.Port()` is empty. -/
def getCorrectSiteName (parsed : Option GoURL) : String :=
  match parsed with
  | none => ""
  | some u =>
    if portOnly u.host = "" then
      if u.scheme = "https" then u.host ++ ":443"
      else if u.scheme = "http" then u.host ++ ":80"
      else u.host
    else u.host

/-- `FuzzingEvent` from `stats.go`: the fields the engine supplies, plus the
derived `siteName` the facade fills in before persisting (`part_001` spells
the derived field `SiteName`).  The `URL` field is held as its `url.Parse`
outcome, since `url.Parse` is standard library, outside the repository. -/
structure FuzzingEvent where
  URL : Option GoURL
  ComponentType : String
  ComponentName : String
  TemplateID : String
  PayloadSent : String
  StatusCode : Int
  Matched : Bool
  RawRequest : String
  RawResponse : String
  Severity : String
  siteName : String
deriving DecidableEq, Repr

/-- `func (s *sqliteStatsDatabase) InsertRecord(event) error`: begin a
transaction; resolve site, template, component; insert the fact row; commit.
Each step's error is wrapped with the step name and returned, and the
deferred `tx.Rollback()` discards the transaction's table changes — but the
cache writes already performed by successful resolver steps are on `s`, not
on `tx`, and survive the rollback.  `Begin` on a closed handle fails with
`sql: database is closed`. -/
def SqliteStatsDatabase.insertRecord (s : SqliteStatsDatabase)
    (event : FuzzingEvent) : Except String Unit × SqliteStatsDatabase :=
  if s.db.closed then
    (.error (wrapErr "could not begin transaction" errDBClosed), s)
  else
    let tx0 := s.db.tables
    match getSiteID s.caches tx0 event.siteName with
    | .error e => (.error (wrapErr "could not get site_id" e), s)
    | .ok (siteID, caches1, tx1) =>
      match getTemplateID caches1 tx1 event.TemplateID with
      | .error e =>
        (.error (wrapErr "could not get template_id" e), { s with caches := caches1 })
      | .ok (templateID, caches2, tx2) =>
        match getComponentID caches2 tx2 siteID event.ComponentType event.ComponentName with
        | .error e =>
          (.error (wrapErr "could not get component_id" e), { s with caches := caches2 })
        | .ok (componentID, caches3, tx3) =>
          let tx4 := insertFuzzingResult tx3 componentID templateID
            event.PayloadSent event.StatusCode
          (.ok (),
            { s with caches := caches3, db := { s.db with tables := tx4 } })

/-- The `Tracker` facade owning the stats database. -/
structure Tracker where
  database : SqliteStatsDatabase
deriving DecidableEq, Repr

/-- `NewTracker(scanName)`: opens the run-scoped sqlite store. -/
def NewTracker (scanName : String) : Tracker :=
  { database := newSqliteStatsDatabase scanName }

/-- `func (t *Tracker) Close()`: closes the store. -/
def Tracker.close (t : Tracker) : Tracker :=
  { t with database := t.database.close }

/-- `func (t *Tracker) RecordResultEvent(event)`: derives the site name from
the event URL and delegates to the store's record insert.  The Go method has
no return value and does not capture the store call's error, so the
embedding keeps only the updated tracker and drops the `Except` result. -/
def Tracker.recordResultEvent (t : Tracker) (event : FuzzingEvent) : Tracker :=
  let event' := { event with siteName := getCorrectSiteName event.URL }
  let res := t.database.insertRecord event'
  { t with database := res.2 }

/-! ## Helper lemmas about decimal numerals and the component cache key -/

/-- The numeric value of a digit string, most significant digit first. -/
def digitsVal (cs : List Char) : Nat :=
  cs.foldl (fun a c => 10 * a + (c.toNat - 48)) 0

theorem toNat_digitChar (k : Nat) (h : k < 10) :
    (Char.ofNat (48 + k)).toNat = 48 + k := by
  interval_cases k <;> decide

theorem digitChar_ne_colon (k : Nat) (h : k < 10) : Char.ofNat (48 + k) ≠ ':' := by
  interval_cases k <;> decide

/-- Reference form of the decimal digits, convenient for induction. -/
def repChars (n : Nat) : List Char :=
  if h : n < 10 then [Char.ofNat (48 + n)]
  else repChars (n / 10) ++ [Char.ofNat (48 + n % 10)]
  termination_by n
  decreasing_by
    exact Nat.div_lt_self (Nat.lt_of_lt_of_le (by decide) (Nat.le_of_not_lt h)) (by decide)

theorem natDecimalGo_eq_repChars :
    ∀ (fuel n : Nat) (acc : List Char), n < fuel →
      natDecimalGo fuel n acc = repChars n ++ acc := by
  intro fuel
  induction fuel with
  | zero => intro n acc h; exact absurd h (Nat.not_lt_zero n)
  | succ f ih =>
    intro n acc h
    by_cases h10 : n < 10
    · rw [natDecimalGo, if_pos h10, repChars, dif_pos h10]
      rfl
    · rw [natDecimalGo, if_neg h10, repChars, dif_neg h10]
      have hdiv : n / 10 < f := by
        have h1 : n / 10 < n := Nat.div_lt_self
          (Nat.lt_of_lt_of_le (by decide) (Nat.le_of_not_lt h10)) (by decide)
        omega
      rw [ih (n / 10) _ hdiv, List.append_assoc]
      rfl

theorem natDecimalChars_eq_repChars (n : Nat) : natDecimalChars n = repChars n := by
  rw [natDecimalChars, natDecimalGo_eq_repChars (n + 1) n [] (Nat.lt_succ_self n),
    List.append_nil]

theorem digitsVal_append_digit (xs : List Char) (d : Char) :
    digitsVal (xs ++ [d]) = 10 * digitsVal xs + (d.toNat - 48) := by
  simp [digitsVal, List.foldl_append]

theorem digitsVal_repChars (n : Nat) : digitsVal (repChars n) = n := by
  induction n using repChars.induct with
  | case1 n h =>
    rw [repChars, dif_pos h]
    simp [digitsVal, toNat_digitChar n h]
  | case2 n h ih =>
    rw [repChars, dif_neg h]
    rw [digitsVal_append_digit, ih,
      toNat_digitChar (n % 10) (Nat.mod_lt n (by decide))]
    omega

theorem natDecimalChars_injective {m n : Nat}
    (h : natDecimalChars m = natDecimalChars n) : m = n := by
  rw [natDecimalChars_eq_repChars, natDecimalChars_eq_repChars] at h
  have hm := digitsVal_repChars m
  rw [h, digitsVal_repChars n] at hm
  exact hm.symm

theorem colon_not_mem_natDecimalChars (n : Nat) : ':' ∉ natDecimalChars n := by
  rw [natDecimalChars_eq_repChars]
  induction n using repChars.induct with
  | case1 n h =>
    rw [repChars, dif_pos h]
    simp only [List.mem_singleton]
    exact fun hc => digitChar_ne_colon n h hc.symm
  | case2 n h ih =>
    rw [repChars, dif_neg h]
    simp only [List.mem_append, List.mem_singleton]
    rintro (hc | hc)
    · exact ih hc
    · exact digitChar_ne_colon (n % 10) (Nat.mod_lt n (by decide)) hc.symm

/-- Splitting at the first colon is unambiguous when the left parts are
colon-free. -/
theorem append_colon_inj (xs : List Char) : ∀ zs ys ws : List Char, ':' ∉ xs →
    ':' ∉ zs → xs ++ ':' :: ys = zs ++ ':' :: ws → xs = zs ∧ ys = ws := by
  induction xs with
  | nil =>
    intro zs ys ws _ hz h
    cases zs with
    | nil => simpa using h
    | cons z zs =>
      simp only [List.nil_append, List.cons_append, List.cons.injEq] at h
      exact absurd (h.1 ▸ List.mem_cons_self z zs) hz
  | cons x xs ih =>
    intro zs ys ws hx hz h
    cases zs with
    | nil =>
      simp only [List.nil_append, List.cons_append, List.cons.injEq] at h
      exact absurd (h.1 ▸ List.mem_cons_self x xs) hx
    | cons z zs =>
      simp only [List.cons_append, List.cons.injEq] at h
      obtain ⟨rfl, h2⟩ := h
      have hrec := ih zs ys ws (fun hm => hx (List.mem_cons_of_mem x hm))
        (fun hm => hz (List.mem_cons_of_mem x hm)) h2
      exact ⟨by rw [hrec.1], hrec.2⟩

theorem componentKey_data (s : Nat) (t n : String) :
    (componentKey s t n).data = natDecimalChars s ++ ':' :: (t.data ++ ':' :: n.data) := by
  show natDecimalChars s ++ [':'] ++ t.data ++ [':'] ++ n.data = _
  simp

/-- The site identifier is always recoverable from a component cache key:
its decimal numeral is the segment before the first colon. -/
theorem componentKey_site_inj {s s' : Nat} {t n t' n' : String}
    (h : componentKey s t n = componentKey s' t' n') : s = s' := by
  have hd := congrArg String.data h
  rw [componentKey_data, componentKey_data] at hd
  exact natDecimalChars_injective
    (append_colon_inj _ _ _ _ (colon_not_mem_natDecimalChars s)
      (colon_not_mem_natDecimalChars s') hd).1

/-- When both component types are colon-free, the whole triple is recoverable
from the cache key. -/
theorem componentKey_inj {s s' : Nat} {t n t' n' : String}
    (ht : ':' ∉ t.data) (ht' : ':' ∉ t'.data)
    (h : componentKey s t n = componentKey s' t' n') :
    s = s' ∧ t = t' ∧ n = n' := by
  have hd := congrArg String.data h
  rw [componentKey_data, componentKey_data] at hd
  have h1 := append_colon_inj _ _ _ _ (colon_not_mem_natDecimalChars s)
    (colon_not_mem_natDecimalChars s') hd
  have h2 := append_colon_inj _ _ _ _ ht ht' h1.2
  exact ⟨natDecimalChars_injective h1.1, String.ext h2.1, String.ext h2.2⟩

/-! ## Concrete fixtures -/

/-- A durable state in which each dimension table already holds a row for a
natural key that is not yet in any cache — the state another concurrent
resolution leaves behind after winning the insert race. -/
def racedTables : Tables :=
  { sites := [{ site_id := 1, site_name := "example.com:443" }]
    templates := [{ template_id := 1, template_name := "tpl" }]
    components := [{ component_id := 1, site_id := 1
                     component_type := "form", component_name := "login" }]
    fuzzing_results := []
    nextSiteId := 2, nextTemplateId := 2, nextComponentId := 2 }

/-- The caches after resolving component `(1, "a:b", "c")` on a fresh store. -/
def collisionCaches : Caches :=
  { Caches.empty with componentIDCache := [("1:a:b:c", 1)] }

/-- The transaction tables after that same resolution. -/
def collisionTables : Tables :=
  { Tables.empty with
    components := [{ component_id := 1, site_id := 1
                     component_type := "a:b", component_name := "c" }]
    nextComponentId := 2 }

/-! ## Claim theorems -/

/-- **C1.** The claim says a dimension resolution that misses the cache while
a row with the same natural key already exists durably falls through to
reading and returning the existing identifier.  The code instead runs
`INSERT OR IGNORE … RETURNING` and scans its result: for an already-existing
key the statement inserts nothing and returns no row, so `Scan` fails with
`sql.ErrNoRows` and all three resolvers return that error instead of the
existing identifier.  `racedTables` holds a row for each natural key; the
caches are empty. -/
theorem c1_resolvers_error_instead_of_reading_existing_id :
    getSiteID Caches.empty racedTables "example.com:443" = .error errNoRows ∧
    getTemplateID Caches.empty racedTables "tpl" = .error errNoRows ∧
    getComponentID Caches.empty racedTables 1 "form" "login" = .error errNoRows :=
  ⟨rfl, rfl, rfl⟩

/-- The site-name rule in the words of the specification: `host:port` (the
parsed `Host`, which carries the port) when an explicit port is present;
otherwise `host:443` for scheme `https`, `host:80` for scheme `http`, the
host unchanged for any other scheme; the empty string for an unparsable URL. -/
def siteNameSpecRule (parsed : Option GoURL) : String :=
  match parsed with
  | none => ""
  | some u =>
    if portOnly u.host ≠ "" then u.host
    else if u.scheme = "https" then u.host ++ ":443"
    else if u.scheme = "http" then u.host ++ ":80"
    else u.host

/-- **C6.** The site name normalizer agrees with the claim's rule on every
parse outcome, and on the specification's literal cases: parse failure gives
`""` (and, the function being total, no error reaches the caller). -/
theorem c6_site_name_normalizer_follows_spec :
    getCorrectSiteName none = "" ∧
    getCorrectSiteName (some { scheme := "http", host := "example.com" }) =
      "example.com:80" ∧
    getCorrectSiteName (some { scheme := "https", host := "example.com" }) =
      "example.com:443" ∧
    getCorrectSiteName (some { scheme := "https", host := "example.com:8443" }) =
      "example.com:8443" ∧
    getCorrectSiteName (some { scheme := "ftp", host := "example.com" }) =
      "example.com" ∧
    ∀ parsed : Option GoURL, getCorrectSiteName parsed = siteNameSpecRule parsed := by
  refine ⟨rfl, rfl, rfl, rfl, rfl, ?_⟩
  intro parsed
  cases parsed with
  | none => rfl
  | some u =>
    simp only [getCorrectSiteName, siteNameSpecRule]
    by_cases h : portOnly u.host = "" <;> simp [h]

/-- **C10.** The component cache key joins `siteID`, `componentType` and
`componentName` with `:`; the distinct triples `(1, "a:b", "c")` and
`(1, "a", "b:c")` share the key `"1:a:b:c"`, and resolving the second right
after the first is answered from the cache with the first triple's
identifier, leaving the tables untouched; distinct triples are guaranteed
distinct keys when both component types are colon-free. -/
theorem c10_component_cache_key_collision :
    componentKey 1 "a:b" "c" = componentKey 1 "a" "b:c" ∧
    getComponentID Caches.empty Tables.empty 1 "a:b" "c" =
      .ok (1, collisionCaches, collisionTables) ∧
    getComponentID collisionCaches collisionTables 1 "a" "b:c" =
      .ok (1, collisionCaches, collisionTables) ∧
    ∀ (s s' : Nat) (t n t' n' : String), ':' ∉ t.data → ':' ∉ t'.data →
      componentKey s t n = componentKey s' t' n' → s = s' ∧ t = t' ∧ n = n' :=
  ⟨rfl, rfl, rfl, fun _ _ _ _ _ _ ht ht' h => componentKey_inj ht ht' h⟩

/-- Witness for C10: the key-injectivity part applied at a concrete
colon-free input. -/
theorem c10_component_cache_key_collision_witness :
    (3 : Nat) = 3 ∧ "form" = "form" ∧ "login" = "login" :=
  c10_component_cache_key_collision.2.2.2 3 3 "form" "login" "form" "login"
    (by decide) (by decide) rfl

/-- A fuzzing event whose URL parses to `https://example.com`, as the engine
would emit it (the derived `siteName` still unset). -/
def sampleEvent : FuzzingEvent :=
  { URL := some { scheme := "https", host := "example.com" }
    ComponentType := "form", ComponentName := "login", TemplateID := "tpl"
    PayloadSent := "payload", StatusCode := 200, Matched := true
    RawRequest := "", RawResponse := "", Severity := "low", siteName := "" }

/-- **C3 (counterexample).** After `close()` on a freshly constructed
Tracker, the write-ahead-log side artifacts are gone but the main persisted
data file `scan.stats.db` is still on disk: `Close` only removes the `-wal`
and `-shm` files, so the claim that the data file is also removed is false. -/
theorem c3_main_data_file_survives_close :
    "scan.stats.db" ∈ (NewTracker "scan").close.database.files ∧
    "scan.stats.db-wal" ∉ (NewTracker "scan").close.database.files ∧
    "scan.stats.db-shm" ∉ (NewTracker "scan").close.database.files := by
  decide

/-- **C3 (amended).** `close()` removes exactly the write-ahead-log side
artifacts `<scanName>.stats.db-wal` and `<scanName>.stats.db-shm`; every
other file — in particular the main data file — survives. -/
theorem c3_close_removes_exactly_wal_artifacts :
    ∀ t : Tracker,
      (t.database.scanName ++ ".stats.db-wal") ∉ t.close.database.files ∧
      (t.database.scanName ++ ".stats.db-shm") ∉ t.close.database.files ∧
      ∀ f, f ∈ t.database.files → f ≠ t.database.scanName ++ ".stats.db-wal" →
        f ≠ t.database.scanName ++ ".stats.db-shm" → f ∈ t.close.database.files := by
  intro t
  refine ⟨?_, ?_, ?_⟩
  · simp [Tracker.close, SqliteStatsDatabase.close, removeFile, List.mem_filter]
  · simp [Tracker.close, SqliteStatsDatabase.close, removeFile, List.mem_filter]
  · intro f hf hwal hshm
    simp only [Tracker.close, SqliteStatsDatabase.close, removeFile, List.mem_filter,
      decide_eq_true_eq]
    exact ⟨⟨hf, hwal⟩, hshm⟩

/-- Witness for the amended C3 at a concrete tracker: the retained-file leg
applied to the main data file of `NewTracker "scan"`. -/
theorem c3_close_removes_exactly_wal_artifacts_witness :
    "scan.stats.db" ∈ (NewTracker "scan").close.database.files :=
  (c3_close_removes_exactly_wal_artifacts (NewTracker "scan")).2.2
    "scan.stats.db" (by decide) (by decide) (by decide)

/-- **C7 (counterexample).** After `close()`, a record call is a silent
no-op at the facade: the store-level insert does fail with the closed-state
error, but `RecordResultEvent` returns nothing and leaves the tracker
unchanged, so no error is surfaced to its caller — refuting the claim that
every subsequent record call fails with a closed-state error surfaced to
the caller. -/
theorem c7_record_after_close_is_silent_noop :
    ((NewTracker "scan").close.database.insertRecord sampleEvent).1 =
      .error "could not begin transaction: sql: database is closed" ∧
    (NewTracker "scan").close.recordResultEvent sampleEvent =
      (NewTracker "scan").close :=
  ⟨rfl, rfl⟩

/-- **C7 (amended).** After `close()`, the store-level `InsertRecord` fails
deterministically with the wrapped closed-database error and changes
nothing; the facade's `RecordResultEvent` discards that error and returns
the tracker unchanged instead of surfacing it. -/
theorem c7_insert_after_close_fails_deterministically :
    ∀ (t : Tracker) (ev : FuzzingEvent),
      (t.close.database.insertRecord ev).1 =
        .error (wrapErr "could not begin transaction" errDBClosed) ∧
      (t.close.database.insertRecord ev).2 = t.close.database ∧
      t.close.recordResultEvent ev = t.close :=
  fun _ _ => ⟨rfl, rfl, rfl⟩

/-- The store of a scan whose `sites` table already holds the row another
concurrent resolution committed, while the caches are still empty. -/
def racedStore : SqliteStatsDatabase :=
  { db := { closed := false, tables := racedTables }
    scanName := "scan", caches := Caches.empty
    files := ["scan.stats.db", "scan.stats.db-wal", "scan.stats.db-shm"] }

/-- **C2 (counterexample).** A durable-store error during a record is not
returned to the caller of the facade's `RecordResultEvent`: on the raced
store the inner `InsertRecord` fails (wrapped as a site-resolution error),
yet `RecordResultEvent` — which has no error result and does not capture
the store call's error — returns just the unchanged tracker. -/
theorem c2_facade_discards_store_error :
    ((Tracker.mk racedStore).database.insertRecord
        { sampleEvent with siteName := "example.com:443" }).1 =
      .error "could not get site_id: sql: no rows in result set" ∧
    (Tracker.mk racedStore).recordResultEvent sampleEvent = Tracker.mk racedStore :=
  ⟨rfl, rfl⟩

/-- **C2 (amended).** Every durable-store error arising during a record is
returned by the store's `InsertRecord` to its immediate caller wrapped with
context identifying the failing step; the facade's record methods then
discard it. -/
theorem c2_store_errors_are_wrapped_with_step_context :
    ∀ (s : SqliteStatsDatabase) (ev : FuzzingEvent) (err : String),
      (s.insertRecord ev).1 = .error err →
      ∃ step inner,
        (step = "could not begin transaction" ∨ step = "could not get site_id" ∨
         step = "could not get template_id" ∨ step = "could not get component_id") ∧
        err = wrapErr step inner := by
  intro s ev err h
  unfold SqliteStatsDatabase.insertRecord at h
  by_cases hc : s.db.closed
  · rw [if_pos hc] at h
    exact ⟨"could not begin transaction", errDBClosed, Or.inl rfl,
      (Except.error.injEq _ _ ▸ h.symm : _)⟩
  · rw [if_neg hc] at h
    simp only [] at h
    cases hsite : getSiteID s.caches s.db.tables ev.siteName with
    | error e =>
      rw [hsite] at h
      simp only [] at h
      exact ⟨"could not get site_id", e, Or.inr (Or.inl rfl), by
        simpa using h.symm⟩
    | ok v1 =>
      obtain ⟨siteID, caches1, tx1⟩ := v1
      rw [hsite] at h
      simp only [] at h
      cases htpl : getTemplateID caches1 tx1 ev.TemplateID with
      | error e =>
        rw [htpl] at h
        simp only [] at h
        exact ⟨"could not get template_id", e, Or.inr (Or.inr (Or.inl rfl)), by
          simpa using h.symm⟩
      | ok v2 =>
        obtain ⟨templateID, caches2, tx2⟩ := v2
        rw [htpl] at h
        simp only [] at h
        cases hcomp : getComponentID caches2 tx2 siteID ev.ComponentType ev.ComponentName with
        | error e =>
          rw [hcomp] at h
          simp only [] at h
          exact ⟨"could not get component_id", e, Or.inr (Or.inr (Or.inr rfl)), by
            simpa using h.symm⟩
        | ok v3 =>
          obtain ⟨componentID, caches3, tx3⟩ := v3
          rw [hcomp] at h
          simp only [] at h
          simp at h

/-- Witness for the amended C2: the closed store's begin-transaction error
is wrapped with its step context. -/
theorem c2_store_errors_are_wrapped_with_step_context_witness :
    ∃ step inner,
      (step = "could not begin transaction" ∨ step = "could not get site_id" ∨
       step = "could not get template_id" ∨ step = "could not get component_id") ∧
      "could not begin transaction: sql: database is closed" = wrapErr step inner :=
  c2_store_errors_are_wrapped_with_step_context
    (NewTracker "scan").close.database sampleEvent
    "could not begin transaction: sql: database is closed" rfl

/-! ## Resolver case-analysis lemmas -/

theorem getSiteID_ok_elim {caches : Caches} {tx : Tables} {name : String}
    {id : Nat} {caches' : Caches} {tx' : Tables}
    (h : getSiteID caches tx name = .ok (id, caches', tx')) :
    (cacheLookup caches.siteIDCache name = some id ∧ caches' = caches ∧ tx' = tx) ∨
    (cacheLookup caches.siteIDCache name = none ∧
      (tx.sites.any fun r => r.site_name = name) = false ∧
      id = tx.nextSiteId ∧
      caches' = { caches with siteIDCache := (name, id) :: caches.siteIDCache } ∧
      tx' = { tx with
        sites := { site_id := tx.nextSiteId, site_name := name } :: tx.sites
        nextSiteId := tx.nextSiteId + 1 }) := by
  unfold getSiteID at h
  cases hcl : cacheLookup caches.siteIDCache name with
  | some v =>
    rw [hcl] at h
    simp only [Except.ok.injEq, Prod.mk.injEq] at h
    obtain ⟨h1, h2, h3⟩ := h
    subst h1
    subst h2
    subst h3
    exact Or.inl ⟨rfl, rfl, rfl⟩
  | none =>
    rw [hcl] at h
    unfold queryInsertSiteReturning at h
    by_cases hany : (tx.sites.any fun r => r.site_name = name) = true
    · rw [if_pos hany] at h
      simp at h
    · rw [if_neg hany] at h
      simp only [Except.ok.injEq, Prod.mk.injEq] at h
      obtain ⟨h1, h2, h3⟩ := h
      subst h1
      subst h2
      subst h3
      exact Or.inr ⟨rfl, by simpa using hany, rfl, rfl, rfl⟩

theorem getTemplateID_ok_elim {caches : Caches} {tx : Tables} {name : String}
    {id : Nat} {caches' : Caches} {tx' : Tables}
    (h : getTemplateID caches tx name = .ok (id, caches', tx')) :
    (cacheLookup caches.templateIDCache name = some id ∧ caches' = caches ∧ tx' = tx) ∨
    (cacheLookup caches.templateIDCache name = none ∧
      (tx.templates.any fun r => r.template_name = name) = false ∧
      id = tx.nextTemplateId ∧
      caches' = { caches with templateIDCache := (name, id) :: caches.templateIDCache } ∧
      tx' = { tx with
        templates := { template_id := tx.nextTemplateId, template_name := name }
          :: tx.templates
        nextTemplateId := tx.nextTemplateId + 1 }) := by
  unfold getTemplateID at h
  cases hcl : cacheLookup caches.templateIDCache name with
  | some v =>
    rw [hcl] at h
    simp only [Except.ok.injEq, Prod.mk.injEq] at h
    obtain ⟨h1, h2, h3⟩ := h
    subst h1
    subst h2
    subst h3
    exact Or.inl ⟨rfl, rfl, rfl⟩
  | none =>
    rw [hcl] at h
    unfold queryInsertTemplateReturning at h
    by_cases hany : (tx.templates.any fun r => r.template_name = name) = true
    · rw [if_pos hany] at h
      simp at h
    · rw [if_neg hany] at h
      simp only [Except.ok.injEq, Prod.mk.injEq] at h
      obtain ⟨h1, h2, h3⟩ := h
      subst h1
      subst h2
      subst h3
      exact Or.inr ⟨rfl, by simpa using hany, rfl, rfl, rfl⟩

theorem getComponentID_ok_elim {caches : Caches} {tx : Tables} {siteID : Nat}
    {ctype cname : String} {id : Nat} {caches' : Caches} {tx' : Tables}
    (h : getComponentID caches tx siteID ctype cname = .ok (id, caches', tx')) :
    (cacheLookup caches.componentIDCache (componentKey siteID ctype cname) = some id ∧
      caches' = caches ∧ tx' = tx) ∨
    (cacheLookup caches.componentIDCache (componentKey siteID ctype cname) = none ∧
      (tx.components.any fun r =>
        r.site_id = siteID ∧ r.component_type = ctype ∧ r.component_name = cname) = false ∧
      id = tx.nextComponentId ∧
      caches' = { caches with
        componentIDCache :=
          (componentKey siteID ctype cname, id) :: caches.componentIDCache } ∧
      tx' = { tx with
        components := { component_id := tx.nextComponentId, site_id := siteID
                        component_type := ctype, component_name := cname }
          :: tx.components
        nextComponentId := tx.nextComponentId + 1 }) := by
  unfold getComponentID at h
  cases hcl : cacheLookup caches.componentIDCache (componentKey siteID ctype cname) with
  | some v =>
    rw [hcl] at h
    simp only [Except.ok.injEq, Prod.mk.injEq] at h
    obtain ⟨h1, h2, h3⟩ := h
    subst h1
    subst h2
    subst h3
    exact Or.inl ⟨rfl, rfl, rfl⟩
  | none =>
    rw [hcl] at h
    unfold queryInsertComponentReturning at h
    by_cases hany : (tx.components.any fun r =>
        r.site_id = siteID ∧ r.component_type = ctype ∧ r.component_name = cname) = true
    · rw [if_pos hany] at h
      simp at h
    · rw [if_neg hany] at h
      simp only [Except.ok.injEq, Prod.mk.injEq] at h
      obtain ⟨h1, h2, h3⟩ := h
      subst h1
      subst h2
      subst h3
      exact Or.inr ⟨rfl, by simpa using hany, rfl, rfl, rfl⟩

theorem getSiteID_of_cacheHit {caches : Caches} {name : String} {id : Nat}
    (hl : cacheLookup caches.siteIDCache name = some id) (tx : Tables) :
    getSiteID caches tx name = .ok (id, caches, tx) := by
  unfold getSiteID
  rw [hl]

theorem getTemplateID_of_cacheHit {caches : Caches} {name : String} {id : Nat}
    (hl : cacheLookup caches.templateIDCache name = some id) (tx : Tables) :
    getTemplateID caches tx name = .ok (id, caches, tx) := by
  unfold getTemplateID
  rw [hl]

theorem getComponentID_of_cacheHit {caches : Caches} {siteID : Nat}
    {ctype cname : String} {id : Nat}
    (hl : cacheLookup caches.componentIDCache (componentKey siteID ctype cname) = some id)
    (tx : Tables) :
    getComponentID caches tx siteID ctype cname = .ok (id, caches, tx) := by
  unfold getComponentID
  rw [hl]

/-- The `fuzzing_results` column family is untouched by site resolution. -/
theorem getSiteID_ok_fuzzing_results {caches : Caches} {tx : Tables} {name : String}
    {id : Nat} {caches' : Caches} {tx' : Tables}
    (h : getSiteID caches tx name = .ok (id, caches', tx')) :
    tx'.fuzzing_results = tx.fuzzing_results := by
  rcases getSiteID_ok_elim h with ⟨_, _, rfl⟩ | ⟨_, _, _, _, rfl⟩ <;> rfl

theorem getTemplateID_ok_fuzzing_results {caches : Caches} {tx : Tables} {name : String}
    {id : Nat} {caches' : Caches} {tx' : Tables}
    (h : getTemplateID caches tx name = .ok (id, caches', tx')) :
    tx'.fuzzing_results = tx.fuzzing_results := by
  rcases getTemplateID_ok_elim h with ⟨_, _, rfl⟩ | ⟨_, _, _, _, rfl⟩ <;> rfl

theorem getComponentID_ok_fuzzing_results {caches : Caches} {tx : Tables}
    {siteID : Nat} {ctype cname : String} {id : Nat} {caches' : Caches} {tx' : Tables}
    (h : getComponentID caches tx siteID ctype cname = .ok (id, caches', tx')) :
    tx'.fuzzing_results = tx.fuzzing_results := by
  rcases getComponentID_ok_elim h with ⟨_, _, rfl⟩ | ⟨_, _, _, _, rfl⟩ <;> rfl

/-- **C4.** The fact recorder commits only when all four steps succeed — on
success exactly the one fact row for this event is appended to the durable
tables — and on any failure the returned state's durable tables are exactly
the pre-call tables: the rollback leaves no dimension row or fact row
created for the event in the durable store. -/
theorem c4_commit_only_on_success_rollback_on_failure :
    ∀ (s : SqliteStatsDatabase) (ev : FuzzingEvent) (r : Except String Unit)
      (s' : SqliteStatsDatabase), s.insertRecord ev = (r, s') →
      (r = .ok () → ∃ componentID templateID,
        s'.db.tables.fuzzing_results =
          { component_id := componentID, template_id := templateID
            payload_sent := ev.PayloadSent, status_code_received := ev.StatusCode }
            :: s.db.tables.fuzzing_results) ∧
      (∀ err : String, r = .error err → s'.db.tables = s.db.tables) := by
  intro s ev r s' h
  unfold SqliteStatsDatabase.insertRecord at h
  by_cases hc : s.db.closed
  · rw [if_pos hc] at h
    injection h with h1 h2
    subst h2
    constructor
    · intro hok
      rw [hok] at h1
      simp at h1
    · intro err _
      rfl
  · rw [if_neg hc] at h
    simp only [] at h
    cases hsite : getSiteID s.caches s.db.tables ev.siteName with
    | error e =>
      rw [hsite] at h
      simp only [] at h
      injection h with h1 h2
      subst h2
      constructor
      · intro hok
        rw [hok] at h1
        simp at h1
      · intro err _
        rfl
    | ok v1 =>
      obtain ⟨siteID, caches1, tx1⟩ := v1
      rw [hsite] at h
      simp only [] at h
      cases htpl : getTemplateID caches1 tx1 ev.TemplateID with
      | error e =>
        rw [htpl] at h
        simp only [] at h
        injection h with h1 h2
        subst h2
        constructor
        · intro hok
          rw [hok] at h1
          simp at h1
        · intro err _
          rfl
      | ok v2 =>
        obtain ⟨templateID, caches2, tx2⟩ := v2
        rw [htpl] at h
        simp only [] at h
        cases hcomp : getComponentID caches2 tx2 siteID ev.ComponentType
            ev.ComponentName with
        | error e =>
          rw [hcomp] at h
          simp only [] at h
          injection h with h1 h2
          subst h2
          constructor
          · intro hok
            rw [hok] at h1
            simp at h1
          · intro err _
            rfl
        | ok v3 =>
          obtain ⟨componentID, caches3, tx3⟩ := v3
          rw [hcomp] at h
          simp only [] at h
          injection h with h1 h2
          subst h2
          constructor
          · intro _
            refine ⟨componentID, templateID, ?_⟩
            show (insertFuzzingResult tx3 componentID templateID
              ev.PayloadSent ev.StatusCode).fuzzing_results = _
            rw [insertFuzzingResult]
            rw [getComponentID_ok_fuzzing_results hcomp,
              getTemplateID_ok_fuzzing_results htpl,
              getSiteID_ok_fuzzing_results hsite]
          · intro err herr
            rw [herr] at h1
            simp at h1

/-- Witness for C4 at concrete inputs: a fresh store's record succeeds and
appends exactly one fact row; a record on a closed store fails and leaves
the durable tables untouched. -/
theorem c4_commit_only_on_success_rollback_on_failure_witness :
    (∃ componentID templateID,
      ((newSqliteStatsDatabase "scan").insertRecord sampleEvent).2.db.tables.fuzzing_results =
        { component_id := componentID, template_id := templateID
          payload_sent := sampleEvent.PayloadSent
          status_code_received := sampleEvent.StatusCode }
          :: (newSqliteStatsDatabase "scan").db.tables.fuzzing_results) ∧
    ((newSqliteStatsDatabase "scan").close.insertRecord sampleEvent).2.db.tables =
      (newSqliteStatsDatabase "scan").close.db.tables :=
  ⟨(c4_commit_only_on_success_rollback_on_failure (newSqliteStatsDatabase "scan")
      sampleEvent _ _ rfl).1 rfl,
   (c4_commit_only_on_success_rollback_on_failure (newSqliteStatsDatabase "scan").close
      sampleEvent _ _ rfl).2 (wrapErr "could not begin transaction" errDBClosed) rfl⟩

/-- **C8.** A successful resolution leaves the key cached with its
identifier, so any subsequent resolution of the same key — in this or any
later transaction state — is answered from the cache with the same
identifier and returns the transaction tables unchanged (no durable
insert), for all three dimensions. -/
theorem c8_subsequent_resolution_is_cache_hit :
    ∀ (caches : Caches) (tx : Tables),
      (∀ (name : String) (id : Nat) (caches' : Caches) (tx' : Tables),
        getSiteID caches tx name = .ok (id, caches', tx') →
        ∀ tx₂ : Tables, getSiteID caches' tx₂ name = .ok (id, caches', tx₂)) ∧
      (∀ (name : String) (id : Nat) (caches' : Caches) (tx' : Tables),
        getTemplateID caches tx name = .ok (id, caches', tx') →
        ∀ tx₂ : Tables, getTemplateID caches' tx₂ name = .ok (id, caches', tx₂)) ∧
      (∀ (siteID : Nat) (ctype cname : String) (id : Nat) (caches' : Caches)
        (tx' : Tables),
        getComponentID caches tx siteID ctype cname = .ok (id, caches', tx') →
        ∀ tx₂ : Tables, getComponentID caches' tx₂ siteID ctype cname =
          .ok (id, caches', tx₂)) := by
  intro caches tx
  refine ⟨?_, ?_, ?_⟩
  · intro name id caches' tx' h tx₂
    rcases getSiteID_ok_elim h with ⟨hl, rfl, rfl⟩ | ⟨_, _, hid, hcc, _⟩
    · exact getSiteID_of_cacheHit hl tx₂
    · refine getSiteID_of_cacheHit ?_ tx₂
      rw [hcc]
      simp [cacheLookup]
  · intro name id caches' tx' h tx₂
    rcases getTemplateID_ok_elim h with ⟨hl, rfl, rfl⟩ | ⟨_, _, hid, hcc, _⟩
    · exact getTemplateID_of_cacheHit hl tx₂
    · refine getTemplateID_of_cacheHit ?_ tx₂
      rw [hcc]
      simp [cacheLookup]
  · intro siteID ctype cname id caches' tx' h tx₂
    rcases getComponentID_ok_elim h with ⟨hl, rfl, rfl⟩ | ⟨_, _, hid, hcc, _⟩
    · exact getComponentID_of_cacheHit hl tx₂
    · refine getComponentID_of_cacheHit ?_ tx₂
      rw [hcc]
      simp [cacheLookup]

/-- Witness for C8: after resolving the three sample keys on a fresh store,
each re-resolution is a cache hit returning the same identifier and an
unchanged empty transaction. -/
theorem c8_subsequent_resolution_is_cache_hit_witness :
    getSiteID { Caches.empty with siteIDCache := [("example.com:443", 1)] }
      Tables.empty "example.com:443" =
      .ok (1, { Caches.empty with siteIDCache := [("example.com:443", 1)] },
        Tables.empty) ∧
    getTemplateID { Caches.empty with templateIDCache := [("tpl", 1)] }
      Tables.empty "tpl" =
      .ok (1, { Caches.empty with templateIDCache := [("tpl", 1)] },
        Tables.empty) ∧
    getComponentID { Caches.empty with componentIDCache := [("1:form:login", 1)] }
      Tables.empty 1 "form" "login" =
      .ok (1, { Caches.empty with componentIDCache := [("1:form:login", 1)] },
        Tables.empty) :=
  ⟨(c8_subsequent_resolution_is_cache_hit Caches.empty Tables.empty).1
      "example.com:443" 1 _ _ rfl Tables.empty,
   (c8_subsequent_resolution_is_cache_hit Caches.empty Tables.empty).2.1
      "tpl" 1 _ _ rfl Tables.empty,
   (c8_subsequent_resolution_is_cache_hit Caches.empty Tables.empty).2.2
      1 "form" "login" 1 _ _ rfl Tables.empty⟩

/-! ## The cache/store invariant -/

/-- The subset property the claim asserts: every cached key maps to the
identifier of a row that exists in the given tables. -/
def cacheSubset (caches : Caches) (t : Tables) : Prop :=
  (∀ p ∈ caches.siteIDCache, ∃ r ∈ t.sites,
    r.site_id = p.2 ∧ r.site_name = p.1) ∧
  (∀ p ∈ caches.templateIDCache, ∃ r ∈ t.templates,
    r.template_id = p.2 ∧ r.template_name = p.1) ∧
  (∀ p ∈ caches.componentIDCache, ∃ r ∈ t.components,
    r.component_id = p.2 ∧
      p.1 = componentKey r.site_id r.component_type r.component_name)

/-- The converse coverage: every stored row's natural key has a cache entry.
Together with `cacheSubset` this is the inductive invariant the sequential
API maintains. -/
def cacheComplete (caches : Caches) (t : Tables) : Prop :=
  (∀ r ∈ t.sites, ∃ p ∈ caches.siteIDCache, p.1 = r.site_name) ∧
  (∀ r ∈ t.templates, ∃ p ∈ caches.templateIDCache, p.1 = r.template_name) ∧
  (∀ r ∈ t.components, ∃ p ∈ caches.componentIDCache,
    p.1 = componentKey r.site_id r.component_type r.component_name)

/-- The states a store reaches through its API: construction, record calls
and close. -/
inductive Reachable : SqliteStatsDatabase → Prop where
  | init (scanName : String) : Reachable (newSqliteStatsDatabase scanName)
  | record {s : SqliteStatsDatabase} (ev : FuzzingEvent) :
      Reachable s → Reachable (s.insertRecord ev).2
  | close {s : SqliteStatsDatabase} : Reachable s → Reachable s.close

theorem cacheLookup_eq_none_iff (l : List (String × Nat)) (k : String) :
    cacheLookup l k = none ↔ ∀ p ∈ l, p.1 ≠ k := by
  induction l with
  | nil => simp [cacheLookup]
  | cons hd tl ih =>
    obtain ⟨k', v⟩ := hd
    simp only [cacheLookup]
    by_cases hk : k' = k
    · simp [hk]
    · simp [hk, ih]

theorem mem_of_cacheLookup_eq_some {l : List (String × Nat)} {k : String} {v : Nat}
    (h : cacheLookup l k = some v) : (k, v) ∈ l := by
  induction l with
  | nil => simp [cacheLookup] at h
  | cons hd tl ih =>
    obtain ⟨k', v'⟩ := hd
    simp only [cacheLookup] at h
    by_cases hk : k' = k
    · rw [if_pos hk] at h
      injection h with h
      subst hk
      subst h
      exact List.mem_cons_self _ _
    · rw [if_neg hk] at h
      exact List.mem_cons_of_mem _ (ih h)

/-- Under the inductive invariant, site resolution always succeeds and
re-establishes the invariant; templates, components and facts are
untouched. -/
theorem getSiteID_inv {caches : Caches} {t : Tables} (name : String)
    (hsub : cacheSubset caches t) (hcom : cacheComplete caches t) :
    ∃ id caches' t', getSiteID caches t name = .ok (id, caches', t') ∧
      cacheSubset caches' t' ∧ cacheComplete caches' t' ∧
      t'.templates = t.templates ∧ t'.components = t.components ∧
      t'.fuzzing_results = t.fuzzing_results := by
  cases hcl : cacheLookup caches.siteIDCache name with
  | some id =>
    exact ⟨id, caches, t, getSiteID_of_cacheHit hcl t, hsub, hcom, rfl, rfl, rfl⟩
  | none =>
    have hany : (t.sites.any fun r => r.site_name = name) = false := by
      by_contra hne
      have hany' : (t.sites.any fun r => r.site_name = name) = true := by
        revert hne
        cases t.sites.any fun r => r.site_name = name <;> simp
      obtain ⟨r, hr, hname⟩ := List.any_eq_true.mp hany'
      obtain ⟨p, hp, hpk⟩ := hcom.1 r hr
      exact ((cacheLookup_eq_none_iff _ _).mp hcl p hp)
        (hpk.trans (of_decide_eq_true hname))
    refine ⟨t.nextSiteId,
      { caches with siteIDCache := (name, t.nextSiteId) :: caches.siteIDCache },
      { t with sites := { site_id := t.nextSiteId, site_name := name } :: t.sites
               nextSiteId := t.nextSiteId + 1 }, ?_, ?_, ?_, rfl, rfl, rfl⟩
    · unfold getSiteID
      rw [hcl]
      unfold queryInsertSiteReturning
      rw [if_neg (by simp [hany])]
    · refine ⟨?_, hsub.2.1, hsub.2.2⟩
      intro p hp
      rcases List.mem_cons.mp hp with hp | hp
      · exact ⟨{ site_id := t.nextSiteId, site_name := name },
          List.mem_cons_self _ _, by rw [hp], by rw [hp]⟩
      · obtain ⟨r, hr, h1, h2⟩ := hsub.1 p hp
        exact ⟨r, List.mem_cons_of_mem _ hr, h1, h2⟩
    · refine ⟨?_, hcom.2.1, hcom.2.2⟩
      intro r hr
      rcases List.mem_cons.mp hr with hr | hr
      · exact ⟨(name, t.nextSiteId), List.mem_cons_self _ _, by rw [hr]⟩
      · obtain ⟨p, hp, hpk⟩ := hcom.1 r hr
        exact ⟨p, List.mem_cons_of_mem _ hp, hpk⟩

/-- Template analogue of `getSiteID_inv`. -/
theorem getTemplateID_inv {caches : Caches} {t : Tables} (name : String)
    (hsub : cacheSubset caches t) (hcom : cacheComplete caches t) :
    ∃ id caches' t', getTemplateID caches t name = .ok (id, caches', t') ∧
      cacheSubset caches' t' ∧ cacheComplete caches' t' ∧
      t'.sites = t.sites ∧ t'.components = t.components ∧
      t'.fuzzing_results = t.fuzzing_results := by
  cases hcl : cacheLookup caches.templateIDCache name with
  | some id =>
    exact ⟨id, caches, t, getTemplateID_of_cacheHit hcl t, hsub, hcom, rfl, rfl, rfl⟩
  | none =>
    have hany : (t.templates.any fun r => r.template_name = name) = false := by
      by_contra hne
      have hany' : (t.templates.any fun r => r.template_name = name) = true := by
        revert hne
        cases t.templates.any fun r => r.template_name = name <;> simp
      obtain ⟨r, hr, hname⟩ := List.any_eq_true.mp hany'
      obtain ⟨p, hp, hpk⟩ := hcom.2.1 r hr
      exact ((cacheLookup_eq_none_iff _ _).mp hcl p hp)
        (hpk.trans (of_decide_eq_true hname))
    refine ⟨t.nextTemplateId,
      { caches with templateIDCache := (name, t.nextTemplateId) :: caches.templateIDCache },
      { t with
        templates := { template_id := t.nextTemplateId, template_name := name }
          :: t.templates
        nextTemplateId := t.nextTemplateId + 1 }, ?_, ?_, ?_, rfl, rfl, rfl⟩
    · unfold getTemplateID
      rw [hcl]
      unfold queryInsertTemplateReturning
      rw [if_neg (by simp [hany])]
    · refine ⟨hsub.1, ?_, hsub.2.2⟩
      intro p hp
      rcases List.mem_cons.mp hp with hp | hp
      · exact ⟨{ template_id := t.nextTemplateId, template_name := name },
          List.mem_cons_self _ _, by rw [hp], by rw [hp]⟩
      · obtain ⟨r, hr, h1, h2⟩ := hsub.2.1 p hp
        exact ⟨r, List.mem_cons_of_mem _ hr, h1, h2⟩
    · refine ⟨hcom.1, ?_, hcom.2.2⟩
      intro r hr
      rcases List.mem_cons.mp hr with hr | hr
      · exact ⟨(name, t.nextTemplateId), List.mem_cons_self _ _, by rw [hr]⟩
      · obtain ⟨p, hp, hpk⟩ := hcom.2.1 r hr
        exact ⟨p, List.mem_cons_of_mem _ hp, hpk⟩

/-- Component analogue of `getSiteID_inv`. -/
theorem getComponentID_inv {caches : Caches} {t : Tables} (siteID : Nat)
    (ctype cname : String)
    (hsub : cacheSubset caches t) (hcom : cacheComplete caches t) :
    ∃ id caches' t', getComponentID caches t siteID ctype cname = .ok (id, caches', t') ∧
      cacheSubset caches' t' ∧ cacheComplete caches' t' ∧
      t'.sites = t.sites ∧ t'.templates = t.templates ∧
      t'.fuzzing_results = t.fuzzing_results := by
  cases hcl : cacheLookup caches.componentIDCache (componentKey siteID ctype cname) with
  | some id =>
    exact ⟨id, caches, t, getComponentID_of_cacheHit hcl t, hsub, hcom, rfl, rfl, rfl⟩
  | none =>
    have hany : (t.components.any fun r =>
        r.site_id = siteID ∧ r.component_type = ctype ∧ r.component_name = cname)
        = false := by
      by_contra hne
      have hany' : (t.components.any fun r =>
          r.site_id = siteID ∧ r.component_type = ctype ∧ r.component_name = cname)
          = true := by
        revert hne
        cases t.components.any fun r =>
          r.site_id = siteID ∧ r.component_type = ctype ∧ r.component_name = cname <;>
          simp
      obtain ⟨r, hr, htriple⟩ := List.any_eq_true.mp hany'
      obtain ⟨hs, ht, hn⟩ := of_decide_eq_true htriple
      obtain ⟨p, hp, hpk⟩ := hcom.2.2 r hr
      refine ((cacheLookup_eq_none_iff _ _).mp hcl p hp) ?_
      rw [hpk, hs, ht, hn]
    refine ⟨t.nextComponentId,
      { caches with
        componentIDCache :=
          (componentKey siteID ctype cname, t.nextComponentId)
            :: caches.componentIDCache },
      { t with
        components := { component_id := t.nextComponentId, site_id := siteID
                        component_type := ctype, component_name := cname }
          :: t.components
        nextComponentId := t.nextComponentId + 1 }, ?_, ?_, ?_, rfl, rfl, rfl⟩
    · unfold getComponentID
      rw [hcl]
      unfold queryInsertComponentReturning
      rw [if_neg (by rw [hany]; simp)]
    · refine ⟨hsub.1, hsub.2.1, ?_⟩
      intro p hp
      rcases List.mem_cons.mp hp with hp | hp
      · exact ⟨{ component_id := t.nextComponentId, site_id := siteID
                 component_type := ctype, component_name := cname },
          List.mem_cons_self _ _, by rw [hp], by rw [hp]⟩
      · obtain ⟨r, hr, h1, h2⟩ := hsub.2.2 p hp
        exact ⟨r, List.mem_cons_of_mem _ hr, h1, h2⟩
    · refine ⟨hcom.1, hcom.2.1, ?_⟩
      intro r hr
      rcases List.mem_cons.mp hr with hr | hr
      · exact ⟨(componentKey siteID ctype cname, t.nextComponentId),
          List.mem_cons_self _ _, by rw [hr]⟩
      · obtain ⟨p, hp, hpk⟩ := hcom.2.2 r hr
        exact ⟨p, List.mem_cons_of_mem _ hp, hpk⟩

/-- A record call preserves the inductive invariant (in the sequential
semantics it in fact never takes the rollback path from an invariant
state). -/
theorem insertRecord_preserves_inv {s : SqliteStatsDatabase} (ev : FuzzingEvent)
    (hsub : cacheSubset s.caches s.db.tables)
    (hcom : cacheComplete s.caches s.db.tables) :
    cacheSubset (s.insertRecord ev).2.caches (s.insertRecord ev).2.db.tables ∧
    cacheComplete (s.insertRecord ev).2.caches (s.insertRecord ev).2.db.tables := by
  unfold SqliteStatsDatabase.insertRecord
  by_cases hc : s.db.closed
  · rw [if_pos hc]
    exact ⟨hsub, hcom⟩
  · rw [if_neg hc]
    simp only []
    obtain ⟨id1, c1, t1, hs1, hsub1, hcom1, htp1, hcp1, hfr1⟩ :=
      getSiteID_inv ev.siteName hsub hcom
    rw [hs1]
    simp only []
    obtain ⟨id2, c2, t2, hs2, hsub2, hcom2, hst2, hcp2, hfr2⟩ :=
      getTemplateID_inv ev.TemplateID hsub1 hcom1
    rw [hs2]
    simp only []
    obtain ⟨id3, c3, t3, hs3, hsub3, hcom3, hst3, htp3, hfr3⟩ :=
      getComponentID_inv id1 ev.ComponentType ev.ComponentName hsub2 hcom2
    rw [hs3]
    simp only []
    exact ⟨hsub3, hcom3⟩

/-- **C5 (amended).** On every state the store reaches through its
sequential API — construction, record calls, close — the caches are a subset
of the durable tables: each cached key maps to the identifier of an existing
row.  (A record whose transaction rolls back after a resolver step can break
this, see the counterexample; such a rollback is only reachable through the
concurrent race the spec's §9 caveat describes.) -/
theorem c5_cache_subset_on_reachable_states :
    ∀ s : SqliteStatsDatabase, Reachable s → cacheSubset s.caches s.db.tables := by
  have key : ∀ s : SqliteStatsDatabase, Reachable s →
      cacheSubset s.caches s.db.tables ∧ cacheComplete s.caches s.db.tables := by
    intro s h
    induction h with
    | init scanName =>
      refine ⟨⟨?_, ?_, ?_⟩, ?_, ?_, ?_⟩ <;> intro p hp <;> simp_all [newSqliteStatsDatabase,
        Caches.empty, Tables.empty]
    | record ev _ ih => exact insertRecord_preserves_inv ev ih.1 ih.2
    | close _ ih => exact ih
  exact fun s h => (key s h).1

/-- Witness for the amended C5: the freshly constructed store is reachable
and satisfies the subset property. -/
theorem c5_cache_subset_on_reachable_states_witness :
    cacheSubset (newSqliteStatsDatabase "scan").caches
      (newSqliteStatsDatabase "scan").db.tables :=
  c5_cache_subset_on_reachable_states (newSqliteStatsDatabase "scan")
    (Reachable.init "scan")

/-- The store another concurrent writer leaves behind: the `templates` table
already holds `"tpl"`, committed by that writer, while this process's caches
are still empty. -/
def c5PreStore : SqliteStatsDatabase :=
  { db := { closed := false
            tables := { Tables.empty with
              templates := [{ template_id := 1, template_name := "tpl" }]
              nextTemplateId := 2 } }
    scanName := "scan", caches := Caches.empty
    files := ["scan.stats.db", "scan.stats.db-wal", "scan.stats.db-shm"] }

/-- **C5 (counterexample).** The subset invariant is not preserved by a
record call: starting from `c5PreStore` — which satisfies it — the record
resolves the fresh site (caching `("site1", 1)` inside the transaction),
then fails on the template (its row exists durably but not in the cache),
and the transaction rolls back.  The site row is discarded with the
transaction, but the cache write survives, so afterwards the site cache
holds an identifier with no corresponding durable row. -/
theorem c5_rolled_back_insert_leaves_stale_cache_entry :
    cacheSubset c5PreStore.caches c5PreStore.db.tables ∧
    (c5PreStore.insertRecord { sampleEvent with siteName := "site1" }).1 =
      .error (wrapErr "could not get template_id" errNoRows) ∧
    ¬ cacheSubset
        (c5PreStore.insertRecord { sampleEvent with siteName := "site1" }).2.caches
        (c5PreStore.insertRecord { sampleEvent with siteName := "site1" }).2.db.tables := by
  refine ⟨?_, rfl, ?_⟩
  · exact ⟨by simp [c5PreStore, Caches.empty], by simp [c5PreStore, Caches.empty],
      by simp [c5PreStore, Caches.empty]⟩
  · intro hsub
    obtain ⟨r, hr, _, _⟩ := hsub.1 ("site1", 1) (by decide)
    have hsites : (c5PreStore.insertRecord
        { sampleEvent with siteName := "site1" }).2.db.tables.sites = [] := rfl
    rw [hsites] at hr
    exact absurd hr (List.not_mem_nil r)

/-! ## Component identifiers are scoped to their site -/

/-- Well-formedness of the component table and its cache: cache entries
describe existing rows, identity values are below the next-identity counter
(the schema's integer identity), and an identifier determines its row's
site. -/
def componentTableWF (caches : Caches) (t : Tables) : Prop :=
  (∀ p ∈ caches.componentIDCache, ∃ r ∈ t.components,
    r.component_id = p.2 ∧
      p.1 = componentKey r.site_id r.component_type r.component_name) ∧
  (∀ r ∈ t.components, r.component_id < t.nextComponentId) ∧
  (∀ r ∈ t.components, ∀ r' ∈ t.components,
    r.component_id = r'.component_id → r.site_id = r'.site_id)

/-- A successful component resolution preserves well-formedness, only grows
the component table, and returns the identifier of a row whose site is the
requested one. -/
theorem getComponentID_wf {caches : Caches} {t : Tables} {siteID : Nat}
    {ctype cname : String} {id : Nat} {caches' : Caches} {t' : Tables}
    (hwf : componentTableWF caches t)
    (h : getComponentID caches t siteID ctype cname = .ok (id, caches', t')) :
    componentTableWF caches' t' ∧
    (∀ r ∈ t.components, r ∈ t'.components) ∧
    ∃ r ∈ t'.components, r.component_id = id ∧ r.site_id = siteID := by
  rcases getComponentID_ok_elim h with ⟨hcl, rfl, rfl⟩ | ⟨hcl, hany, hid, hcc, htx⟩
  · refine ⟨hwf, fun r hr => hr, ?_⟩
    obtain ⟨r, hr, hrid, hrkey⟩ :=
      hwf.1 (componentKey siteID ctype cname, id) (mem_of_cacheLookup_eq_some hcl)
    exact ⟨r, hr, hrid, (componentKey_site_inj hrkey).symm⟩
  · subst hid
    subst hcc
    subst htx
    refine ⟨⟨?_, ?_, ?_⟩, fun r hr => List.mem_cons_of_mem _ hr,
      ⟨{ component_id := t.nextComponentId, site_id := siteID
         component_type := ctype, component_name := cname },
        List.mem_cons_self _ _, rfl, rfl⟩⟩
    · intro p hp
      rcases List.mem_cons.mp hp with hp | hp
      · exact ⟨{ component_id := t.nextComponentId, site_id := siteID
                 component_type := ctype, component_name := cname },
          List.mem_cons_self _ _, by rw [hp], by rw [hp]⟩
      · obtain ⟨r, hr, h1, h2⟩ := hwf.1 p hp
        exact ⟨r, List.mem_cons_of_mem _ hr, h1, h2⟩
    · intro r hr
      rcases List.mem_cons.mp hr with hr | hr
      · rw [hr]
        exact Nat.lt_succ_self _
      · exact Nat.lt_succ_of_lt (hwf.2.1 r hr)
    · intro r hr r' hr' hid
      rcases List.mem_cons.mp hr with hr | hr <;>
        rcases List.mem_cons.mp hr' with hr' | hr'
      · rw [hr, hr']
      · exfalso
        have := hwf.2.1 r' hr'
        rw [hr] at hid
        simp only [] at hid
        omega
      · exfalso
        have := hwf.2.1 r hr
        rw [hr'] at hid
        simp only [] at hid
        omega
      · exact hwf.2.2 r hr r' hr' hid

/-- **C9.** From any well-formed component table, registering the same
component type and name under two distinct site identifiers — in either
order, through the resolver — yields two distinct component identifiers:
component uniqueness is scoped to the site, not global. -/
theorem c9_same_component_under_distinct_sites_gets_distinct_ids :
    ∀ (caches : Caches) (t : Tables) (s1 s2 : Nat) (ctype cname : String)
      (id1 id2 : Nat) (c1 c2 : Caches) (t1 t2 : Tables),
      componentTableWF caches t → s1 ≠ s2 →
      getComponentID caches t s1 ctype cname = .ok (id1, c1, t1) →
      getComponentID c1 t1 s2 ctype cname = .ok (id2, c2, t2) →
      id1 ≠ id2 := by
  intro caches t s1 s2 ctype cname id1 id2 c1 c2 t1 t2 hwf hne hcall1 hcall2
  obtain ⟨hwf1, _, r1, hr1, hid1, hsite1⟩ := getComponentID_wf hwf hcall1
  obtain ⟨hwf2, hmono2, r2, hr2, hid2, hsite2⟩ := getComponentID_wf hwf1 hcall2
  intro heq
  have hr1' : r1 ∈ t2.components := hmono2 r1 hr1
  have hids : r1.component_id = r2.component_id := by
    rw [hid1, hid2, heq]
  have := hwf2.2.2 r1 hr1' r2 hr2 hids
  rw [hsite1, hsite2] at this
  exact hne this

/-- Witness for C9: on a fresh store, sites 1 and 2 each registering
`("form", "login")` receive component identifiers 1 and 2 respectively,
which are distinct. -/
theorem c9_same_component_under_distinct_sites_gets_distinct_ids_witness :
    (1 : Nat) ≠ 2 :=
  c9_same_component_under_distinct_sites_gets_distinct_ids
    Caches.empty Tables.empty 1 2 "form" "login" 1 2 _ _ _ _
    (by refine ⟨?_, ?_, ?_⟩ <;> intro p hp <;> simp [Caches.empty, Tables.empty] at hp)
    (by decide) rfl rfl

end NucleiFuzzStats
